import Mathlib

/-!
Shallow embedding of the `shiqi/relay` upstream-relay client:

* `src/general/src/types/impls.rs` — the annotated value model (`FromValue` /
  `ToValue` implementations for primitives, arrays, objects, dates, boxes and
  fixed-arity tuples).
* `src/relay-server/src/actors/upstream.rs` — the upstream actor: auth state
  machine, response classification, and rate-limit scoping.
* `src/relay-common/src/lib.rs` — re-exports only; the `RetryBackoff` type it
  re-exports is modelled from the spec.

Rust trait polymorphism is embedded by passing the component's conversion
functions explicitly.  Rust `f64` is embedded as `Rat`; machine-integer casts
(`as i64`, `as u32`) are made explicit.  Stateful actor handlers become pure
functions from the actor state and the outcomes of their suspension points
(network legs) to the new state plus the emitted effects.
-/

/- ## Data model: Value, Annotated<Value> and Meta

The `Value`, `Annotated` and `Meta` types live in `general/src/types/mod.rs`
and `meta.rs`, which are not part of the provided sources; their shape is
given by §3 of the spec.  `Meta` carries an ordered list of error entries
`(message, original_value)`, optional remarks and an optional original
length. -/

mutual

/-- Modelled from the spec: `Value` is a tagged sum over
`{Null, Bool, U64, I64, F64, String, Array, Object}`; arrays hold sequences of
`Annotated<Value>` and objects ordered string-keyed maps of `Annotated<Value>`.
`f64` is embedded as `Rat`. -/
inductive Value where
  | null : Value
  | bool (b : Bool) : Value
  | u64 (n : Nat) : Value
  | i64 (n : Int) : Value
  | f64 (q : Rat) : Value
  | str (s : String) : Value
  | arr (items : List AnnotatedValue) : Value
  | obj (items : List (String × AnnotatedValue)) : Value

/-- Modelled from the spec: `Annotated<Value>` — an optional value paired with
its `Meta`. -/
inductive AnnotatedValue where
  | mk (value : Option Value) (meta : Meta) : AnnotatedValue

/-- Modelled from the spec: `Meta` holds an ordered sequence of error entries
`{message, original_value}`, optional remarks and an optional original
length. -/
inductive Meta where
  | mk (errors : List (String × Option Value)) (remarks : List String)
      (original_length : Option Nat) : Meta

end

/-- The error entries of a `Meta`. -/
def Meta.errors : Meta → List (String × Option Value)
  | .mk e _ _ => e

/-- The remarks of a `Meta`. -/
def Meta.remarks : Meta → List String
  | .mk _ r _ => r

/-- The original length recorded in a `Meta`. -/
def Meta.original_length : Meta → Option Nat
  | .mk _ _ o => o

/-- The empty `Meta` (identity element per spec §3). -/
def Meta.empty : Meta := .mk [] [] none

/-- Modelled from the spec: `Meta::add_error` appends one error entry,
preserving insertion order (§3: "Insertion order of errors is preserved"). -/
def Meta.add_error (m : Meta) (msg : String) (orig : Option Value) : Meta :=
  .mk (m.errors ++ [(msg, orig)]) m.remarks m.original_length

/-- Modelled from the spec: `Meta::add_unexpected_value_error(expectation, v)`
appends a typed error whose message is `"expected <expectation>"` carrying the
offending value.  The message shape is pinned by the in-repo test
`test_unsigned_integers`, which expects
`Annotated::from_error("expected an unsigned integer", Some(Value::I64(-1)))`. -/
def Meta.add_unexpected_value_error (m : Meta) (expectation : String)
    (v : Value) : Meta :=
  m.add_error ("expected " ++ expectation) (some v)

/-- `Annotated<T>`: an optional value of type `T` plus `Meta` (spec §3). -/
structure Annotated (α : Type) where
  value : Option α
  meta : Meta

/-- The value of an `AnnotatedValue`. -/
def AnnotatedValue.value : AnnotatedValue → Option Value
  | .mk v _ => v

/-- The meta of an `AnnotatedValue`. -/
def AnnotatedValue.meta : AnnotatedValue → Meta
  | .mk _ m => m

/- ## FromValue implementations (general/src/types/impls.rs)

Trait polymorphism is embedded by passing the component type's `from_value`
function explicitly: an instance `FromValue for Array<T>` becomes a Lean
function taking `f : AnnotatedValue → Annotated α` for `T`'s conversion. -/

/-- `impl<T: FromValue> FromValue for Array<T>` (impls.rs lines 33-48):
accept `Value::Array` mapping each element through `T`'s `from_value`;
`Null` and a missing value propagate as `(None, meta)`; any other variant
appends `add_unexpected_value_error("array", value)` and returns `None`. -/
def arrayFromValue {α : Type} (f : AnnotatedValue → Annotated α) :
    AnnotatedValue → Annotated (List (Annotated α))
  | .mk (some (.arr items)) meta => ⟨some (items.map f), meta⟩
  | .mk (some .null) meta => ⟨none, meta⟩
  | .mk none meta => ⟨none, meta⟩
  | .mk (some v) meta => ⟨none, meta.add_unexpected_value_error "array" v⟩

/-- `impl<T: FromValue> FromValue for Object<T>` (impls.rs lines 97-117):
accept `Value::Object` mapping each entry's value through `T`'s `from_value`,
preserving insertion order; `Null` and a missing value propagate; any other
variant appends `add_unexpected_value_error("object", value)`. -/
def objectFromValue {α : Type} (f : AnnotatedValue → Annotated α) :
    AnnotatedValue → Annotated (List (String × Annotated α))
  | .mk (some (.obj items)) meta =>
      ⟨some (items.map (fun kv => (kv.1, f kv.2))), meta⟩
  | .mk (some .null) meta => ⟨none, meta⟩
  | .mk none meta => ⟨none, meta⟩
  | .mk (some v) meta => ⟨none, meta.add_unexpected_value_error "object" v⟩

/-- `impl FromValue for Value` (impls.rs lines 174-178): the identity —
the incoming `Annotated<Value>` is returned verbatim. -/
def valueFromValue : AnnotatedValue → Annotated Value
  | .mk v meta => ⟨v, meta⟩

/-- `Box<T>` in Lean: a single-field wrapper. -/
structure Boxed (α : Type) where
  unbox : α

/-- `impl<T: FromValue> FromValue for Box<T>` (impls.rs lines 282-290):
delegate to `T`'s `from_value` and box the result. -/
def boxFromValue {α : Type} (f : AnnotatedValue → Annotated α)
    (av : AnnotatedValue) : Annotated (Boxed α) :=
  let annotated := f av
  ⟨annotated.value.map Boxed.mk, annotated.meta⟩

/-- The fixed-arity tuple `FromValue` generated by `tuple_meta_structure!`
(impls.rs lines 316-345, instantiated for arities 1..12): the component
converters are passed as a list `convs` whose length is the arity `n`.
On `Value::Array`: a length mismatch appends
`add_unexpected_value_error("tuple", Value::Array(items))` and returns `None`;
on matching length each element is converted in order by its component's
converter.  Any other present value — the macro has no dedicated `Null` arm —
appends `add_unexpected_value_error("tuple", value)`.  A missing value
propagates. -/
def tupleFromValue {α : Type} (convs : List (AnnotatedValue → Annotated α)) :
    AnnotatedValue → Annotated (List (Annotated α))
  | .mk (some (.arr items)) meta =>
      if items.length ≠ convs.length then
        ⟨none, meta.add_unexpected_value_error "tuple" (.arr items)⟩
      else
        ⟨some (List.zipWith (fun f x => f x) convs items), meta⟩
  | .mk (some v) meta => ⟨none, meta.add_unexpected_value_error "tuple" v⟩
  | .mk none meta => ⟨none, meta⟩

/-- Modelled from the spec: the `numeric_meta_structure!(u64, U64,
"an unsigned integer")` macro body is not under `src/`; per spec §4.1 the
`u64` instance accepts the matching primitive variant, rejects negative
numbers with `"expected an unsigned integer"` carrying the original `I64`,
rejects other variants with the same typed error, and propagates `Null`
without an error.  The in-repo test `test_unsigned_integers` pins the `-1`
case. -/
def u64FromValue : AnnotatedValue → Annotated Nat
  | .mk (some (.u64 n)) meta => ⟨some n, meta⟩
  | .mk (some (.i64 i)) meta =>
      if i < 0 then
        ⟨none, meta.add_unexpected_value_error "an unsigned integer" (.i64 i)⟩
      else ⟨some i.toNat, meta⟩
  | .mk (some .null) meta => ⟨none, meta⟩
  | .mk none meta => ⟨none, meta⟩
  | .mk (some v) meta =>
      ⟨none, meta.add_unexpected_value_error "an unsigned integer" v⟩

/-- Modelled from the spec: `primitive_meta_structure!(bool, Bool,
"a boolean")` — accept the matching primitive variant, reject others with
`"expected a boolean"`, propagate `Null` without an error (spec §4.1). -/
def boolFromValue : AnnotatedValue → Annotated Bool
  | .mk (some (.bool b)) meta => ⟨some b, meta⟩
  | .mk (some .null) meta => ⟨none, meta⟩
  | .mk none meta => ⟨none, meta⟩
  | .mk (some v) meta => ⟨none, meta.add_unexpected_value_error "a boolean" v⟩

/-- Modelled from the spec: `primitive_meta_structure!(String, String,
"a string")` — accept the matching primitive variant, reject others with
`"expected a string"`, propagate `Null` without an error (spec §4.1). -/
def stringFromValue : AnnotatedValue → Annotated String
  | .mk (some (.str s)) meta => ⟨some s, meta⟩
  | .mk (some .null) meta => ⟨none, meta⟩
  | .mk none meta => ⟨none, meta⟩
  | .mk (some v) meta => ⟨none, meta.add_unexpected_value_error "a string" v⟩

/-- Modelled from the spec: `primitive_meta_structure_through_string!(Uuid,
"a uuid")` — parse from a string (the parser is passed explicitly), on parse
failure append an error with the original string, reject non-string variants
with `"expected a uuid"`, propagate `Null` without an error (spec §4.1). -/
def throughStringFromValue {α : Type} (parse : String → Option α)
    (expectation : String) : AnnotatedValue → Annotated α
  | .mk (some (.str s)) meta =>
      match parse s with
      | some v => ⟨some v, meta⟩
      | none => ⟨none, meta.add_error ("expected " ++ expectation)
          (some (.str s))⟩
  | .mk (some .null) meta => ⟨none, meta⟩
  | .mk none meta => ⟨none, meta⟩
  | .mk (some v) meta => ⟨none, meta.add_unexpected_value_error expectation v⟩

/- ## DateTime<Utc> (impls.rs lines 221-280)

`chrono::DateTime<Utc>` is embedded as whole seconds since epoch plus a
non-negative subsecond nanosecond count, matching `timestamp()` /
`timestamp_subsec_micros()` / `Utc.timestamp_opt(secs, nsecs)`. -/

/-- `chrono::DateTime<Utc>`: seconds since epoch and subsecond nanoseconds. -/
structure DateTimeUtc where
  secs : Int
  nanos : Nat

/-- Truncation of a rational toward zero — the semantics of Rust's
`f64 as i64` cast (before saturation): floor for non-negative values, ceiling
for negative ones. -/
def ratTruncToInt (q : Rat) : Int :=
  if 0 ≤ q then ⌊q⌋ else ⌈q⌉

/-- The fractional part `q - trunc(q)`, the semantics of Rust's
`f64::fract` (sign-preserving). -/
def ratFract (q : Rat) : Rat := q - (ratTruncToInt q : Rat)

/-- Rust `f64 as i64`: truncate toward zero, saturating at the `i64` range. -/
def f64AsI64 (q : Rat) : Int :=
  max (-(2 ^ 63)) (min (2 ^ 63 - 1) (ratTruncToInt q))

/-- Rust `f64 as u32`: truncate toward zero, saturating at `[0, 2^32-1]`. -/
def f64AsU32 (q : Rat) : Nat :=
  (max 0 (min (2 ^ 32 - 1) (ratTruncToInt q))).toNat

/-- Rust `u64 as i64`: reinterpret the 64-bit pattern. -/
def u64AsI64 (n : Nat) : Int :=
  if n < 2 ^ 63 then (n : Int) else (n : Int) - 2 ^ 64

/-- `fn datetime_to_timestamp(dt: DateTime<Utc>) -> f64` (impls.rs lines
221-224): whole seconds plus `timestamp_subsec_micros() / 1e6`; the
microsecond count is the nanosecond count integer-divided by 1000. -/
def datetime_to_timestamp (dt : DateTimeUtc) : Rat :=
  (dt.secs : Rat) + ((dt.nanos / 1000 : Nat) : Rat) / 1000000

/-- `impl FromValue for DateTime<Utc>` (impls.rs lines 226-261), restricted to
the non-string variants (string parsing delegates to chrono's parsers, which
are external): `U64`/`I64` are whole seconds; `F64 ts` takes
`secs = ts as i64` and `micros = (ts.fract() * 1e6) as u32`, building
`timestamp_opt(secs, micros * 1000)`; `Null` and a missing value propagate;
`Bool`/`Array`/`Object` append `add_unexpected_value_error("timestamp", v)`.
The string arm is embedded via an explicit chrono parser parameter
`parseDate`, whose error case carries `err.to_string()` — the message the
source passes to `meta.add_error` together with the original string. -/
def dateTimeFromValue (parseDate : String → Except String DateTimeUtc) :
    AnnotatedValue → Annotated DateTimeUtc
  | .mk (some (.str s)) meta =>
      match parseDate s with
      | .ok dt => ⟨some dt, meta⟩
      | .error e => ⟨none, meta.add_error e (some (.str s))⟩
  | .mk (some (.u64 ts)) meta => ⟨some ⟨u64AsI64 ts, 0⟩, meta⟩
  | .mk (some (.i64 ts)) meta => ⟨some ⟨ts, 0⟩, meta⟩
  | .mk (some (.f64 ts)) meta =>
      ⟨some ⟨f64AsI64 ts, f64AsU32 (ratFract ts * 1000000) * 1000⟩, meta⟩
  | .mk (some .null) meta => ⟨none, meta⟩
  | .mk none meta => ⟨none, meta⟩
  | .mk (some v) meta => ⟨none, meta.add_unexpected_value_error "timestamp" v⟩

/-- `impl ToValue for DateTime<Utc>`, `to_value` (impls.rs lines 263-271):
a present value becomes `Value::F64(datetime_to_timestamp(value))`. -/
def dateTimeToValue (a : Annotated DateTimeUtc) : AnnotatedValue :=
  match a with
  | ⟨some dt, meta⟩ => .mk (some (.f64 (datetime_to_timestamp dt))) meta
  | ⟨none, meta⟩ => .mk none meta

/- ## Serialization (ToValue side, impls.rs lines 50-95 and 119-172)

`serialize_payload` streams into a serde `Serializer`; its observable output
is embedded as a JSON document tree.  The component type's `serialize_payload`
and `skip_serialization` methods are passed explicitly. -/

/-- The JSON document a serde serializer produces. -/
inductive Json where
  | null : Json
  | bool (b : Bool) : Json
  | num (q : Rat) : Json
  | str (s : String) : Json
  | arr (items : List Json) : Json
  | obj (fields : List (String × Json)) : Json

/-- `SerializePayload<T>` (impls.rs lines 12-24): a present value serializes
through the component's `serialize_payload`; an absent value serializes as the
unit (JSON `null`). -/
def serializeAnnotated {α : Type} (sp : α → Json) (a : Annotated α) : Json :=
  match a.value with
  | some v => sp v
  | none => .null

/-- Modelled from the spec: `Annotated<T>::skip_serialization` lives in
`types/mod.rs`, not under `src/`; per spec §4.1/§4.4 an absent value is
skip-eligible and a present value defers to the inner type's
`skip_serialization`. -/
def annotatedSkip {α : Type} (skip : α → Bool) (a : Annotated α) : Bool :=
  match a.value with
  | some v => skip v
  | none => true

/-- `ToValue for Array<T>::serialize_payload` (impls.rs lines 62-72): a
sequence of every element's `SerializePayload`, with no skip filtering. -/
def arraySerializePayload {α : Type} (sp : α → Json)
    (xs : List (Annotated α)) : Json :=
  .arr (xs.map (serializeAnnotated sp))

/-- `ToValue for Object<T>::serialize_payload` (impls.rs lines 135-148): a map
of the entries whose value's `skip_serialization` is false, each serialized
through `SerializePayload`. -/
def objectSerializePayload {α : Type} (sp : α → Json) (skip : α → Bool)
    (fields : List (String × Annotated α)) : Json :=
  .obj ((fields.filter (fun kv => !annotatedSkip skip kv.2)).map
    (fun kv => (kv.1, serializeAnnotated sp kv.2)))

/-- `ToValue for Array<T>::skip_serialization` (impls.rs lines 87-94): true
iff every element's `skip_serialization` is true. -/
def arraySkipSerialization {α : Type} (skip : α → Bool)
    (xs : List (Annotated α)) : Bool :=
  xs.all (annotatedSkip skip)

/-- `ToValue for Object<T>::skip_serialization` (impls.rs lines 164-171): true
iff every entry value's `skip_serialization` is true. -/
def objectSkipSerialization {α : Type} (skip : α → Bool)
    (fields : List (String × Annotated α)) : Bool :=
  fields.all (fun kv => annotatedSkip skip kv.2)

/-- `MetaTree` (spec §3): a node's own `Meta` plus children keyed by field
name or decimal index. -/
inductive MetaTree where
  | mk (meta : Meta) (children : List (String × MetaTree)) : MetaTree

/-- Whether a `Meta` is empty (spec §3: the identity element). -/
def Meta.isEmptyB (m : Meta) : Bool :=
  m.errors.isEmpty && m.remarks.isEmpty && m.original_length.isNone

mutual

/-- Whether a `MetaTree` is empty: its own `Meta` is empty and every child
subtree is empty (spec §3). -/
def MetaTree.isEmptyB : MetaTree → Bool
  | .mk m children => m.isEmptyB && MetaTree.allEmptyB children

/-- Whether every subtree in a keyed list of `MetaTree`s is empty. -/
def MetaTree.allEmptyB : List (String × MetaTree) → Bool
  | [] => true
  | kv :: rest => kv.2.isEmptyB && MetaTree.allEmptyB rest

end

/-- The enumeration loop of `Array<T>::extract_child_meta`, carrying the
running index. -/
def arrayExtractChildMetaAux {α : Type} (emt : Annotated α → MetaTree) :
    Nat → List (Annotated α) → List (String × MetaTree)
  | _, [] => []
  | idx, x :: rest =>
      let tree := emt x
      if tree.isEmptyB then arrayExtractChildMetaAux emt (idx + 1) rest
      else (toString idx, tree) :: arrayExtractChildMetaAux emt (idx + 1) rest

/-- `ToValue for Array<T>::extract_child_meta` (impls.rs lines 73-85): for
each index-element pair, extract the element's meta tree and insert it under
the decimal index key when non-empty.  The element's `extract_meta_tree` is
passed explicitly as `emt`. -/
def arrayExtractChildMeta {α : Type} (emt : Annotated α → MetaTree)
    (xs : List (Annotated α)) : List (String × MetaTree) :=
  arrayExtractChildMetaAux emt 0 xs

/- ## Upstream actor (relay-server/src/actors/upstream.rs)

Actix actor handlers are embedded as pure functions from the actor state plus
the outcomes of their suspension points (the network legs) to the new state
and the emitted effects (scheduled retries, requests sent). -/

/-- `enum AuthState` (upstream.rs lines 55-62). -/
inductive AuthState where
  | unknown
  | registerRequestChallenge
  | registerChallengeResponse
  | registered
  | error
deriving DecidableEq, Repr

/-- `AuthState::is_authenticated` (upstream.rs lines 64-72): true exactly in
the `Registered` state. -/
def AuthState.is_authenticated (s : AuthState) : Bool :=
  s = AuthState.registered

/-- `StatusCode::is_success`: 2xx. -/
def statusIsSuccess (status : Nat) : Bool :=
  200 ≤ status && status < 300

/-- `StatusCode::is_client_error`: 4xx. -/
def statusIsClientError (status : Nat) : Bool :=
  400 ≤ status && status < 500

/-- Modelled from the spec: `RetryBackoff` (the `relay-common` `retry` module
is not under `src/`); a stateful source of delays starting at a configured
initial delay and doubling up to a configured maximum interval (spec §3,
§4.5).  The counter records how many delays were produced since the last
reset. -/
structure RetryBackoff where
  initial_interval : Nat
  max_interval : Nat
  attempts : Nat
deriving DecidableEq, Repr

/-- Modelled from the spec: `RetryBackoff::reset` returns the sequence to the
start (spec §4.5). -/
def RetryBackoff.reset (b : RetryBackoff) : RetryBackoff :=
  { b with attempts := 0 }

/-- Modelled from the spec: `RetryBackoff::next_backoff` produces the next
delay — the initial delay doubled once per prior call since the last reset,
capped at the maximum interval (spec §4.5). -/
def RetryBackoff.next_backoff (b : RetryBackoff) : Nat × RetryBackoff :=
  (min (b.initial_interval * 2 ^ b.attempts) b.max_interval,
    { b with attempts := b.attempts + 1 })

/- ### Rate limits (spec §4.4 and upstream.rs lines 82-134)

The `relay-quotas` types (`Scoping`, `RateLimit`, `RateLimits`, `QuotaScope`,
`RateLimitScope`, `DataCategories`) and `utils::parse_rate_limits` are not
under `src/`; they are modelled from spec §4.4 and the concrete scenario in
§8.  Data categories are embedded as their names. -/

/-- `Scoping` (spec glossary): identifiers situating a rate limit. -/
structure Scoping where
  organization_id : Nat
  project_id : Nat
  key_id : Nat
deriving DecidableEq, Repr

/-- Modelled from the spec: the scope name declared inside a quota
(spec §4.4); unrecognized names parse to `unknown`. -/
inductive QuotaScope where
  | organization
  | project
  | key
  | unknown
deriving DecidableEq, Repr

/-- Modelled from the spec: parse a quota's declared scope name
(case-sensitive per §9 open question (b)). -/
def QuotaScope.from_name (s : String) : QuotaScope :=
  if s = "organization" then .organization
  else if s = "project" then .project
  else if s = "key" then .key
  else .unknown

/-- A rate-limit scope with its identifier selected from a `Scoping`. -/
inductive RateLimitScope where
  | organization (id : Nat)
  | project (id : Nat)
  | key (id : Nat)
deriving DecidableEq, Repr

/-- Modelled from the spec: `RateLimitScope::for_quota` combines the quota's
declared scope with the caller's `Scoping` to select identifiers (spec §4.4);
the §8 scenario pins `key` ↦ `Key(key_id)`.  An unknown scope falls back to
the most specific scope (`Key`), mirroring the fallback limit's choice. -/
def RateLimitScope.for_quota (scoping : Scoping) : QuotaScope → RateLimitScope
  | .organization => .organization scoping.organization_id
  | .project => .project scoping.project_id
  | .key => .key scoping.key_id
  | .unknown => .key scoping.key_id

/-- A single scoped rate limit (spec §3, §8 scenario): categories (by name),
scope, optional reason code, and the retry-after duration in seconds. -/
structure RateLimit where
  categories : List String
  scope : RateLimitScope
  reason_code : Option String
  retry_after : Nat
deriving DecidableEq, Repr

/-- `RateLimits`: an ordered collection of `RateLimit`s. -/
abbrev RateLimits : Type := List RateLimit

/-- Modelled from the spec: `RateLimits::add` appends a limit. -/
def RateLimits.add (rl : RateLimits) (limit : RateLimit) : RateLimits :=
  rl ++ [limit]

/-- Modelled from the spec: `RateLimits::is_limited` — whether any quota is
present (§4.4 phrases the fallback condition as "no quotas are present"). -/
def RateLimits.is_limited (rl : RateLimits) : Bool :=
  !(List.isEmpty rl)

/-- Splitting a string on a separator character — the semantics of Rust's
`str::split(c)`: an empty string yields one empty piece, and `n` separators
yield `n + 1` pieces.  (Implemented structurally over the character list so
that proofs can evaluate it.) -/
def splitCharsOn (c : Char) : List Char → List (List Char)
  | [] => [[]]
  | x :: xs =>
      if x = c then [] :: splitCharsOn c xs
      else
        match splitCharsOn c xs with
        | acc :: rest => (x :: acc) :: rest
        | [] => [[x]]

/-- `str::split(c)` lifted to `String`. -/
def splitStrOn (c : Char) (s : String) : List String :=
  (splitCharsOn c s.data).map List.asString

/-- `str::trim`: drop leading and trailing whitespace. -/
def strTrim (s : String) : String :=
  (((s.data.dropWhile Char.isWhitespace).reverse.dropWhile
    Char.isWhitespace).reverse).asString

/-- Decimal accumulation of a digit list. -/
def charsToNat : List Char → Nat → Nat
  | [], acc => acc
  | c :: cs, acc => charsToNat cs (acc * 10 + (c.toNat - 48))

/-- Parsing a decimal natural — the semantics of `u64::from_str` on digit
strings: at least one character, all digits. -/
def parseNat (s : String) : Option Nat :=
  if s.data ≠ [] ∧ s.data.all Char.isDigit then some (charsToNat s.data 0)
  else none

/-- Modelled from the spec: the `Retry-After` header carries integer seconds;
a failed parse yields no value (spec §6: "absent parse → zero" at the
`UpstreamRateLimits` level). -/
def parseRetryAfterSecs (s : String) : Option Nat :=
  parseNat s

/-- Modelled from the spec: parse one comma-separated quota of the
`X-Sentry-Rate-Limits` header.  §4.4 lists the fields retry_after (seconds),
categories (csv), scope (name) and reason_code (tag); the §8 scenario
`60:transaction:key:reason` pins the positional colon-separated layout with a
semicolon-separated category list.  A quota whose retry-after field does not
parse as seconds is malformed and skipped (`none`); an all-whitespace quota is
skipped. -/
def parseQuota (scoping : Scoping) (s : String) : Option RateLimit :=
  let q := strTrim s
  if q = "" then none
  else
    let fields := splitStrOn ':' q
    match (fields[0]?).bind parseRetryAfterSecs with
    | none => none
    | some retry =>
        let categories := (splitStrOn ';' ((fields[1]?).getD "")).filter
          (fun c => c ≠ "")
        let scopeName := (fields[2]?).getD ""
        let reason := (fields[3]?).bind
          (fun r => if r = "" then none else some r)
        some ⟨categories, RateLimitScope.for_quota scoping
          (QuotaScope.from_name scopeName), reason, retry⟩

/-- Modelled from the spec: `utils::parse_rate_limits` — split the joined
header on commas, parse each quota leniently, and skip malformed quotas
without aborting (spec §4.4). -/
def parse_rate_limits (scoping : Scoping) (s : String) : RateLimits :=
  (splitStrOn ',' s).filterMap (parseQuota scoping)

/-- `struct UpstreamRateLimits` (upstream.rs lines 82-86): the retry-after
duration (seconds) and the raw joined `X-Sentry-Rate-Limits` header. -/
structure UpstreamRateLimits where
  retryAfter : Nat
  rateLimits : String
deriving DecidableEq, Repr

/-- `UpstreamRateLimits::new` (upstream.rs lines 89-95): zero retry-after and
an empty header string. -/
def UpstreamRateLimits.new : UpstreamRateLimits :=
  ⟨0, ""⟩

/-- `UpstreamRateLimits::retry_after` (upstream.rs lines 97-103): parse the
`Retry-After` header value if present; on success replace the stored
duration, otherwise keep it. -/
def UpstreamRateLimits.retry_after (s : UpstreamRateLimits)
    (header : Option String) : UpstreamRateLimits :=
  match header.bind parseRetryAfterSecs with
  | some ra => { s with retryAfter := ra }
  | none => s

/-- `UpstreamRateLimits::rate_limits` (upstream.rs lines 105-112): store the
joined header string. -/
def UpstreamRateLimits.rate_limits (s : UpstreamRateLimits)
    (header : String) : UpstreamRateLimits :=
  { s with rateLimits := header }

/-- `UpstreamRateLimits::scope` (upstream.rs lines 114-133): parse the stored
header leniently; if the result is not limited, add one fallback limit with
empty categories, `Key` scope, no reason code, and the stored retry-after. -/
def UpstreamRateLimits.scope (s : UpstreamRateLimits) (scoping : Scoping) :
    RateLimits :=
  let rate_limits := parse_rate_limits scoping s.rateLimits
  if !rate_limits.is_limited then
    rate_limits.add
      { categories := []
        scope := RateLimitScope.for_quota scoping QuotaScope.key
        reason_code := none
        retry_after := s.retryAfter }
  else
    rate_limits

/- ### Response handling and the message handlers -/

/-- Modelled from the spec: `utils::ApiErrorResponse` is not under `src/`;
§4.2 only requires a JSON-decodable shape with an "empty value" default.  It
is embedded as an optional detail string. -/
structure ApiErrorResponse where
  detail : Option String
deriving DecidableEq, Repr

/-- Modelled from the spec: the "empty value" substituted when JSON decoding
of an error body fails (`Default::default()`). -/
def ApiErrorResponse.empty : ApiErrorResponse :=
  ⟨none⟩

/-- The observable parts of an actix `ClientResponse` that `handle_response`
inspects: the status code, the `Retry-After` header (if present and
UTF-8-readable), the `X-Sentry-Rate-Limits` header values in order, and the
result of JSON-decoding the body into `ApiErrorResponse` (`none` when
decoding fails). -/
structure ClientResponse where
  status : Nat
  retry_after_header : Option String
  rate_limits_headers : List String
  json_body : Option ApiErrorResponse
deriving DecidableEq, Repr

/-- `enum UpstreamRequestError` (upstream.rs lines 27-52).  The causes
attached to `InvalidJson`, `SendFailed`, `BuildFailed` and `PayloadFailed`
are transport details and are not carried. -/
inductive UpstreamRequestError where
  | notAuthenticated
  | noCredentials
  | invalidJson
  | sendFailed
  | buildFailed
  | payloadFailed
  | rateLimited (limits : UpstreamRateLimits)
  | responseError (status : Nat) (body : ApiErrorResponse)
deriving DecidableEq, Repr

/-- `fn handle_response` (upstream.rs lines 144-182): a 2xx response is
returned unchanged; otherwise the body is consumed, and a 429 fails with
`RateLimited` built from the `Retry-After` header and the `", "`-joined
`X-Sentry-Rate-Limits` values, while any other status fails with
`ResponseError(status, body)` where the body is the decoded
`ApiErrorResponse` or the empty value when decoding failed. -/
def handle_response (response : ClientResponse) :
    Except UpstreamRequestError ClientResponse :=
  if statusIsSuccess response.status then
    .ok response
  else if response.status = 429 then
    .error (.rateLimited
      ((UpstreamRateLimits.new.retry_after response.retry_after_header
        ).rate_limits (String.intercalate ", " response.rate_limits_headers)))
  else
    .error (.responseError response.status
      (response.json_body.getD ApiErrorResponse.empty))

/-- Modelled from the spec: `Credentials` (spec §6) — relay id, public key
and secret key; only presence matters to the embedded handlers. -/
structure Credentials where
  id : String
  public_key : String
  secret_key : String
deriving DecidableEq, Repr

/-- The slice of `Config` the embedded handlers consult. -/
structure Config where
  credentials : Option Credentials
deriving DecidableEq, Repr

/-- `struct UpstreamRelay` state (upstream.rs lines 184-188), minus the
config handle which is passed to each handler explicitly. -/
structure UpstreamRelay where
  backoff : RetryBackoff
  auth_state : AuthState
deriving DecidableEq, Repr

/-- `UpstreamRelay::assert_authenticated` (upstream.rs lines 199-205). -/
def assert_authenticated (slf : UpstreamRelay) :
    Except UpstreamRequestError Unit :=
  if !slf.auth_state.is_authenticated then
    .error .notAuthenticated
  else
    .ok ()

/-- Modelled from the spec: `relay_auth::RegisterChallenge` (spec §4.3) — the
first handshake leg's reply `{relay_id, token}`. -/
structure RegisterChallenge where
  relay_id : String
  token : String
deriving DecidableEq, Repr

/-- Modelled from the spec: `relay_auth::Registration` (spec §4.3) — the
second handshake leg's reply record. -/
structure Registration where
  relay_id : String
deriving DecidableEq, Repr

/-- The observable outcome of one `Authenticate` handler run: the actor state
afterwards, the delay of the `notify_later(Authenticate, interval)` retry if
one was scheduled, and the handler's `Result<(), ()>`. -/
structure AuthenticateOutcome where
  relay : UpstreamRelay
  scheduled_retry : Option Nat
  result : Except Unit Unit

/-- The `map_err` arm of the `Authenticate` handler (upstream.rs lines
347-368): set `auth_state = Error`; retry unless the failure is a
`ResponseError` with a client-error (4xx) status; a retry draws its interval
from `backoff.next_backoff()` and is scheduled via `notify_later`. -/
def authenticateFailure (slf : UpstreamRelay) (err : UpstreamRequestError) :
    AuthenticateOutcome :=
  let slf := { slf with auth_state := .error }
  let should_retry :=
    match err with
    | .responseError code _ => !statusIsClientError code
    | _ => true
  if should_retry then
    let nb := slf.backoff.next_backoff
    ⟨{ slf with backoff := nb.2 }, some nb.1, .error ()⟩
  else
    ⟨slf, none, .error ()⟩

/-- `impl Handler<Authenticate> for UpstreamRelay` (upstream.rs lines
315-372).  The two network legs are suspension points and enter as
parameters: `leg1` is the outcome of `send_query(RegisterRequest)`, `leg2`
the outcome of `send_query(challenge.create_response())` for the challenge
received.  Absent credentials: immediate error, state untouched.  Otherwise
`auth_state` walks `RegisterRequestChallenge`, then on leg-1 success
`RegisterChallengeResponse`, then on leg-2 success `Registered` (the success
arm touches nothing else); any failure runs `authenticateFailure`. -/
def handleAuthenticate (config : Config) (slf : UpstreamRelay)
    (leg1 : Except UpstreamRequestError RegisterChallenge)
    (leg2 : RegisterChallenge → Except UpstreamRequestError Registration) :
    AuthenticateOutcome :=
  match config.credentials with
  | none => ⟨slf, none, .error ()⟩
  | some _ =>
      let slf := { slf with auth_state := .registerRequestChallenge }
      match leg1 with
      | .error e => authenticateFailure slf e
      | .ok challenge =>
          let slf := { slf with auth_state := .registerChallengeResponse }
          match leg2 challenge with
          | .error e => authenticateFailure slf e
          | .ok _ => ⟨{ slf with auth_state := .registered }, none, .ok ()⟩

/-- The observable effects of a query dispatch: the result delivered to the
caller and how many HTTP requests were built, signed and sent. -/
structure QueryEffect (ρ : Type) where
  result : Except UpstreamRequestError ρ
  requests_built : Nat
  signatures_computed : Nat
  requests_sent : Nat

/-- `UpstreamRelay::send_query` (upstream.rs lines 258-288): without
credentials fail with `NoCredentials` before any request exists; otherwise
sign and send exactly one request whose network outcome `net` (the
`send_request` + JSON decode chain) becomes the result. -/
def send_query {ρ : Type} (config : Config)
    (net : Except UpstreamRequestError ρ) : QueryEffect ρ :=
  match config.credentials with
  | none => ⟨.error .noCredentials, 0, 0, 0⟩
  | some _ => ⟨net, 1, 1, 1⟩

/-- `impl<T: UpstreamQuery> Handler<SendQuery<T>> for UpstreamRelay`
(upstream.rs lines 527-534): `tryf!(self.assert_authenticated())` short-
circuits with the assertion's error before `send_query` runs. -/
def handleSendQuery {ρ : Type} (slf : UpstreamRelay) (config : Config)
    (net : Except UpstreamRequestError ρ) : QueryEffect ρ :=
  match assert_authenticated slf with
  | .error e => ⟨.error e, 0, 0, 0⟩
  | .ok _ => send_query config net

/- ## Predicates used by the theorem statements -/

/-- Whether a `Value` is the `Array` variant. -/
def Value.isArrayV : Value → Bool
  | .arr _ => true
  | _ => false

/-- Whether a `Value` is the `Object` variant. -/
def Value.isObjectV : Value → Bool
  | .obj _ => true
  | _ => false

/-- Whether a `Value` is the `Null` variant. -/
def Value.isNullV : Value → Bool
  | .null => true
  | _ => false

/-- The variants the `DateTime<Utc>` `FromValue` accepts (impls.rs lines
226-261): strings, the three numeric variants, and `Null`. -/
def dateTimeAcceptedVariant : Value → Bool
  | .str _ => true
  | .u64 _ => true
  | .i64 _ => true
  | .f64 _ => true
  | .null => true
  | _ => false

/-- The retry predicate of the `Authenticate` failure arm (upstream.rs lines
354-357): every failure schedules a retry except a `ResponseError` with a
client-error status. -/
def shouldRetryAfter : UpstreamRequestError → Bool
  | .responseError code _ => !statusIsClientError code
  | _ => true

/- ## Theorems -/

/-- Claim C1 (amended): in the `Authenticate` handler, success of the second
handshake leg sets `auth_state` to `Registered`, schedules no retry, and
leaves the backoff unchanged — it is *not* reset, so the next
`next_backoff()` after a successful registration continues the prior
exponential sequence rather than returning the initial delay. -/
theorem authenticate_success_registered_backoff_unchanged
    (c : Credentials) (slf : UpstreamRelay) (challenge : RegisterChallenge)
    (reg : Registration)
    (leg2 : RegisterChallenge → Except UpstreamRequestError Registration)
    (h : leg2 challenge = .ok reg) :
    handleAuthenticate ⟨some c⟩ slf (.ok challenge) leg2 =
      ⟨⟨slf.backoff, .registered⟩, none, .ok ()⟩ := by
  simp [handleAuthenticate, h]

/-- Witness for C1's amended theorem at a concrete relay whose backoff has
already produced two delays. -/
theorem authenticate_success_registered_backoff_unchanged_witness :
    handleAuthenticate ⟨some ⟨"id", "pk", "sk"⟩⟩ ⟨⟨1, 30, 2⟩, .error⟩
        (.ok ⟨"id", "tok"⟩) (fun _ => .ok ⟨"id"⟩) =
      ⟨⟨⟨1, 30, 2⟩, .registered⟩, none, .ok ()⟩ :=
  authenticate_success_registered_backoff_unchanged
    ⟨"id", "pk", "sk"⟩ ⟨⟨1, 30, 2⟩, .error⟩ ⟨"id", "tok"⟩ ⟨"id"⟩ _ rfl

/-- Counterexample to claim C1 as stated: with initial delay 1 and two prior
backoff draws, a fully successful `Authenticate` run reaches `Registered`,
but the next `next_backoff()` afterwards returns 4, not the initial delay 1 —
the success arm does not reset the backoff. -/
theorem authenticate_success_backoff_not_reset :
    (handleAuthenticate ⟨some ⟨"id", "pk", "sk"⟩⟩ ⟨⟨1, 30, 2⟩, .error⟩
        (.ok ⟨"id", "tok"⟩) (fun _ => .ok ⟨"id"⟩)).relay.auth_state =
      .registered ∧
    (handleAuthenticate ⟨some ⟨"id", "pk", "sk"⟩⟩ ⟨⟨1, 30, 2⟩, .error⟩
        (.ok ⟨"id", "tok"⟩) (fun _ => .ok ⟨"id"⟩)
      ).relay.backoff.next_backoff.1 = 4 ∧
    (handleAuthenticate ⟨some ⟨"id", "pk", "sk"⟩⟩ ⟨⟨1, 30, 2⟩, .error⟩
        (.ok ⟨"id", "tok"⟩) (fun _ => .ok ⟨"id"⟩)
      ).relay.backoff.initial_interval = 1 ∧
    (4 : Nat) ≠ 1 := by
  refine ⟨rfl, rfl, rfl, by decide⟩

/-- Claim C2 (amended): applying `from_value` to
`Annotated(Some(Value::Null), meta)` yields `Annotated(None, meta)` with meta
unchanged and no error for the `Array`, `Object`, `DateTime`, primitive and
through-string instances, and for `Box<T>` whenever `T`'s instance does — but
*not* for the fixed-arity tuple instances, which append an
`"expected tuple"` error carrying the `Null`, nor for the identity instance
on `Value`, which returns the `Null` verbatim. -/
theorem from_value_null_propagation {α : Type}
    (f : AnnotatedValue → Annotated α)
    (convs : List (AnnotatedValue → Annotated α))
    (parse : String → Option α)
    (parseDate : String → Except String DateTimeUtc) (meta : Meta) :
    arrayFromValue f (.mk (some .null) meta) = ⟨none, meta⟩ ∧
    objectFromValue f (.mk (some .null) meta) = ⟨none, meta⟩ ∧
    dateTimeFromValue parseDate (.mk (some .null) meta) = ⟨none, meta⟩ ∧
    u64FromValue (.mk (some .null) meta) = ⟨none, meta⟩ ∧
    boolFromValue (.mk (some .null) meta) = ⟨none, meta⟩ ∧
    stringFromValue (.mk (some .null) meta) = ⟨none, meta⟩ ∧
    throughStringFromValue parse "a uuid" (.mk (some .null) meta) =
      ⟨none, meta⟩ ∧
    (f (.mk (some .null) meta) = ⟨none, meta⟩ →
      boxFromValue f (.mk (some .null) meta) = ⟨none, meta⟩) ∧
    tupleFromValue convs (.mk (some .null) meta) =
      ⟨none, meta.add_unexpected_value_error "tuple" .null⟩ ∧
    valueFromValue (.mk (some .null) meta) = ⟨some .null, meta⟩ := by
  refine ⟨rfl, rfl, rfl, rfl, rfl, rfl, rfl, ?_, rfl, rfl⟩
  intro h
  simp [boxFromValue, h]

/-- Witness for C2's amended theorem: concrete null propagation through
`Array<u64>` and through `Box<u64>`, the latter discharging the delegation
hypothesis. -/
theorem from_value_null_propagation_witness :
    arrayFromValue u64FromValue (.mk (some .null) Meta.empty) =
      ⟨none, Meta.empty⟩ ∧
    boxFromValue u64FromValue (.mk (some .null) Meta.empty) =
      ⟨none, Meta.empty⟩ :=
  ⟨(from_value_null_propagation u64FromValue [] (fun _ => none)
      (fun _ => .error "e") Meta.empty).1,
    (from_value_null_propagation u64FromValue [] (fun _ => none)
      (fun _ => .error "e") Meta.empty).2.2.2.2.2.2.2.1 rfl⟩

/-- Counterexample to claim C2 as stated: the arity-1 tuple instance maps a
present `Null` to `None` *with* one `"expected tuple"` error appended — the
meta is changed, refuting "meta unchanged and no error appended" for "every
implemented FromValue instance (including fixed-arity tuples)". -/
theorem tuple_null_appends_error :
    tupleFromValue [valueFromValue] (.mk (some .null) Meta.empty) =
      ⟨none, Meta.empty.add_unexpected_value_error "tuple" .null⟩ ∧
    (Meta.empty.add_unexpected_value_error "tuple" Value.null).errors =
      [("expected tuple", some .null)] ∧
    Meta.empty.errors = [] :=
  ⟨rfl, rfl, rfl⟩

/-- Claim C3 (amended): `UpstreamRateLimits::scope` synthesizes exactly one
fallback `RateLimit` (Key scope, empty categories, no reason code,
`retry_after` equal to the stored Retry-After duration — which is 0 when the
header carried no value) if and only if parsing the header yields no quotas,
regardless of whether the Retry-After header carried a value; in particular a
429 with Retry-After=10 and no X-Sentry-Rate-Limits yields, for any
`Scoping`, exactly one `RateLimit` at Key scope with retry_after=10s. -/
theorem scope_fallback_characterization (scoping : Scoping)
    (u : UpstreamRateLimits) :
    u.scope scoping =
      (if (parse_rate_limits scoping u.rateLimits).isEmpty then
        [⟨[], .key scoping.key_id, none, u.retryAfter⟩]
      else parse_rate_limits scoping u.rateLimits) ∧
    ((UpstreamRateLimits.new.retry_after (some "10")).rate_limits "").scope
        scoping = [⟨[], .key scoping.key_id, none, 10⟩] := by
  constructor
  · unfold UpstreamRateLimits.scope RateLimits.is_limited RateLimits.add
    cases h : parse_rate_limits scoping u.rateLimits <;>
      simp [h, RateLimitScope.for_quota]
  · rfl

/-- Counterexample to claim C3 as stated: with no `Retry-After` value and no
`X-Sentry-Rate-Limits` header, parsing yields no quotas and the Retry-After
header carried no value, yet `scope` still synthesizes exactly one fallback
limit (with retry_after 0) — refuting the claim's "only if the Retry-After
header carried a value". -/
theorem scope_fallback_without_retry_after :
    ((UpstreamRateLimits.new.retry_after none).rate_limits "").scope
        ⟨1, 2, 3⟩ = [⟨[], .key 3, none, 0⟩] ∧
    parse_rate_limits ⟨1, 2, 3⟩ "" = [] ∧
    (none : Option String).bind parseRetryAfterSecs = none := by
  refine ⟨by decide, by decide, rfl⟩

/-- Claim C4: a failed `Authenticate` handshake always sets
`auth_state = Error`, and schedules a `next_backoff()`-delayed retry exactly
when the failure is not a `ResponseError` with a 4xx status: the outcome of
either leg failing is fully characterized by `shouldRetryAfter`, which is
false exactly on 4xx `ResponseError`s — so a 4xx `ResponseError` schedules no
retry while a 5xx `ResponseError` and `RateLimited` do. -/
theorem authenticate_failure_error_and_retry
    (c : Credentials) (slf : UpstreamRelay) (e : UpstreamRequestError)
    (leg2 : RegisterChallenge → Except UpstreamRequestError Registration)
    (challenge : RegisterChallenge) (body : ApiErrorResponse)
    (limits : UpstreamRateLimits) :
    (handleAuthenticate ⟨some c⟩ slf (.error e) leg2 =
      if shouldRetryAfter e then
        ⟨⟨slf.backoff.next_backoff.2, .error⟩,
          some slf.backoff.next_backoff.1, .error ()⟩
      else ⟨⟨slf.backoff, .error⟩, none, .error ()⟩) ∧
    (leg2 challenge = .error e →
      handleAuthenticate ⟨some c⟩ slf (.ok challenge) leg2 =
        if shouldRetryAfter e then
          ⟨⟨slf.backoff.next_backoff.2, .error⟩,
            some slf.backoff.next_backoff.1, .error ()⟩
        else ⟨⟨slf.backoff, .error⟩, none, .error ()⟩) ∧
    (∀ status,
      shouldRetryAfter (.responseError status body) =
        !(400 ≤ status && status < 500)) ∧
    shouldRetryAfter (.responseError 403 body) = false ∧
    shouldRetryAfter (.responseError 500 body) = true ∧
    shouldRetryAfter (.rateLimited limits) = true := by
  refine ⟨?_, ?_, fun status => rfl, rfl, rfl, rfl⟩
  · cases e <;>
      simp [handleAuthenticate, authenticateFailure, shouldRetryAfter,
        RetryBackoff.next_backoff]
  · intro h
    cases e <;>
      simp [handleAuthenticate, authenticateFailure, shouldRetryAfter,
        RetryBackoff.next_backoff, h]

/-- Witness for C4 at a concrete relay: a 403 during the second leg reaches
`Error` with no retry scheduled. -/
theorem authenticate_failure_error_and_retry_witness :
    handleAuthenticate ⟨some ⟨"id", "pk", "sk"⟩⟩ ⟨⟨1, 30, 0⟩, .unknown⟩
        (.ok ⟨"id", "tok"⟩)
        (fun _ => .error (.responseError 403 ⟨none⟩)) =
      ⟨⟨⟨1, 30, 0⟩, .error⟩, none, .error ()⟩ := by
  have h := (authenticate_failure_error_and_retry ⟨"id", "pk", "sk"⟩
    ⟨⟨1, 30, 0⟩, .unknown⟩ (.responseError 403 ⟨none⟩)
    (fun _ => .error (.responseError 403 ⟨none⟩)) ⟨"id", "tok"⟩ ⟨none⟩
    UpstreamRateLimits.new).2.1 rfl
  simpa using h

/-- Claim C5: a `SendQuery` handled while `auth_state` is any state other
than `Registered` returns `NotAuthenticated` immediately, with zero requests
built, signed or sent. -/
theorem sendquery_requires_registered {ρ : Type} (slf : UpstreamRelay)
    (config : Config) (net : Except UpstreamRequestError ρ)
    (h : slf.auth_state ≠ AuthState.registered) :
    handleSendQuery slf config net = ⟨.error .notAuthenticated, 0, 0, 0⟩ := by
  unfold handleSendQuery assert_authenticated AuthState.is_authenticated
  simp [h]

/-- Witness for C5 in the `Unknown` state. -/
theorem sendquery_requires_registered_witness :
    AuthState.unknown ≠ AuthState.registered ∧
    handleSendQuery ⟨⟨1, 30, 0⟩, .unknown⟩ ⟨some ⟨"id", "pk", "sk"⟩⟩
        (.ok ()) = ⟨.error .notAuthenticated, 0, 0, 0⟩ :=
  ⟨by decide, sendquery_requires_registered ⟨⟨1, 30, 0⟩, .unknown⟩
    ⟨some ⟨"id", "pk", "sk"⟩⟩ (.ok ()) (by decide)⟩

/-- Claim C6: `handle_response` classifies every upstream response: a 2xx
status returns the response unchanged; a 429 fails with `RateLimited`
carrying an `UpstreamRateLimits` built from the `Retry-After` header and the
`", "`-joined `X-Sentry-Rate-Limits` values; every other status fails with
`ResponseError(status, body)` where the body is the decoded
`ApiErrorResponse`, or the empty value when decoding failed. -/
theorem handle_response_classification (r : ClientResponse) :
    (statusIsSuccess r.status = true → handle_response r = .ok r) ∧
    (r.status = 429 → handle_response r =
      .error (.rateLimited
        ((UpstreamRateLimits.new.retry_after r.retry_after_header).rate_limits
          (String.intercalate ", " r.rate_limits_headers)))) ∧
    (statusIsSuccess r.status = false → r.status ≠ 429 →
      handle_response r = .error (.responseError r.status
        (r.json_body.getD ApiErrorResponse.empty))) := by
  refine ⟨fun h => ?_, fun h => ?_, fun h h' => ?_⟩
  · simp [handle_response, h]
  · simp [handle_response, h,
      show statusIsSuccess 429 = false from by decide]
  · simp [handle_response, h, h']

/-- Witness for C6 at three concrete responses: a 200, a 429 with
Retry-After 10 and two rate-limit header values, and a 403 with a decodable
error body. -/
theorem handle_response_classification_witness :
    handle_response ⟨200, none, [], none⟩ = .ok ⟨200, none, [], none⟩ ∧
    handle_response ⟨429, some "10", ["a", "b"], none⟩ =
      .error (.rateLimited
        ((UpstreamRateLimits.new.retry_after (some "10")).rate_limits
          (String.intercalate ", " ["a", "b"]))) ∧
    handle_response ⟨403, none, [], some ⟨some "d"⟩⟩ =
      .error (.responseError 403 ⟨some "d"⟩) :=
  ⟨(handle_response_classification ⟨200, none, [], none⟩).1 rfl,
    (handle_response_classification ⟨429, some "10", ["a", "b"], none⟩).2.1
      rfl,
    (handle_response_classification ⟨403, none, [], some ⟨some "d"⟩⟩).2.2
      rfl (by decide)⟩

/-- Claim C7: for an incoming `Annotated(Some(v), meta)` where `v` is a
variant not accepted by the target implementation (and not `Null`),
`from_value` returns `None` and appends exactly one error whose message is
`"expected <kind>"` — so it begins with `"expected "` — and whose
original value is the rejected `v`; shown for the `Array`, `Object`,
`DateTime` and tuple implementations, with the final conjunct exhibiting
that `add_error` appends exactly one entry. -/
theorem unexpected_variant_single_error {α : Type}
    (f : AnnotatedValue → Annotated α)
    (convs : List (AnnotatedValue → Annotated α))
    (parseDate : String → Except String DateTimeUtc)
    (v : Value) (meta : Meta) :
    (v.isArrayV = false → v.isNullV = false →
      arrayFromValue f (.mk (some v) meta) =
        ⟨none, meta.add_error ("expected " ++ "array") (some v)⟩) ∧
    (v.isObjectV = false → v.isNullV = false →
      objectFromValue f (.mk (some v) meta) =
        ⟨none, meta.add_error ("expected " ++ "object") (some v)⟩) ∧
    (dateTimeAcceptedVariant v = false →
      dateTimeFromValue parseDate (.mk (some v) meta) =
        ⟨none, meta.add_error ("expected " ++ "timestamp") (some v)⟩) ∧
    (v.isArrayV = false → v.isNullV = false →
      tupleFromValue convs (.mk (some v) meta) =
        ⟨none, meta.add_error ("expected " ++ "tuple") (some v)⟩) ∧
    (∀ msg orig, (meta.add_error msg orig).errors =
      meta.errors ++ [(msg, orig)]) := by
  refine ⟨?_, ?_, ?_, ?_, fun msg orig => rfl⟩
  · intro h1 h2
    cases v <;> simp_all [Value.isArrayV, Value.isNullV, arrayFromValue,
      Meta.add_unexpected_value_error]
  · intro h1 h2
    cases v <;> simp_all [Value.isObjectV, Value.isNullV, objectFromValue,
      Meta.add_unexpected_value_error]
  · intro h1
    cases v <;> simp_all [dateTimeAcceptedVariant, dateTimeFromValue,
      Meta.add_unexpected_value_error]
  · intro h1 h2
    cases v <;> simp_all [Value.isArrayV, Value.isNullV, tupleFromValue,
      Meta.add_unexpected_value_error]

/-- Witness for C7: a `Bool` into `Array<u64>` and a `String` into an
arity-1 tuple each produce `None` plus the single typed error. -/
theorem unexpected_variant_single_error_witness :
    arrayFromValue u64FromValue (.mk (some (.bool true)) Meta.empty) =
      ⟨none, Meta.empty.add_error ("expected " ++ "array")
        (some (.bool true))⟩ ∧
    tupleFromValue [u64FromValue] (.mk (some (.str "x")) Meta.empty) =
      ⟨none, Meta.empty.add_error ("expected " ++ "tuple")
        (some (.str "x"))⟩ :=
  ⟨(unexpected_variant_single_error u64FromValue [u64FromValue]
      (fun _ => .error "e") (.bool true) Meta.empty).1 rfl rfl,
    (unexpected_variant_single_error u64FromValue [u64FromValue]
      (fun _ => .error "e") (.str "x") Meta.empty).2.2.2.1 rfl rfl⟩

/-- Claim C8: a fixed-arity tuple's `from_value` on an incoming
`Value::Array` returns `None` with one `"expected tuple"` error carrying the
original array if and only if the array's length differs from the arity
(the number of component converters); on matching lengths each element is
converted element-wise, in order, by its component's converter. -/
theorem tuple_arity_mismatch_iff {α : Type}
    (convs : List (AnnotatedValue → Annotated α))
    (items : List AnnotatedValue) (meta : Meta) :
    tupleFromValue convs (.mk (some (.arr items)) meta) =
      (if items.length ≠ convs.length then
        ⟨none, meta.add_unexpected_value_error "tuple" (.arr items)⟩
      else ⟨some (List.zipWith (fun f x => f x) convs items), meta⟩) ∧
    ((tupleFromValue convs (.mk (some (.arr items)) meta)).value.isSome ↔
      items.length = convs.length) ∧
    (items.length ≠ convs.length →
      (tupleFromValue convs (.mk (some (.arr items)) meta)).meta.errors =
        meta.errors ++ [("expected tuple", some (.arr items))]) ∧
    (items.length = convs.length →
      tupleFromValue convs (.mk (some (.arr items)) meta) =
        ⟨some (List.zipWith (fun f x => f x) convs items), meta⟩) := by
  refine ⟨rfl, ?_, ?_, ?_⟩
  · by_cases h : items.length = convs.length <;> simp [tupleFromValue, h]
  · intro h
    have heq : tupleFromValue convs (.mk (some (.arr items)) meta) =
        ⟨none, meta.add_unexpected_value_error "tuple" (.arr items)⟩ := by
      simp [tupleFromValue, h]
    rw [heq]
    rfl
  · intro h
    simp [tupleFromValue, h]

/-- Witness for C8: arity 1 versus an empty array appends the single
`"expected tuple"` error; arity 1 versus a one-element array converts
element-wise. -/
theorem tuple_arity_mismatch_iff_witness :
    (tupleFromValue [u64FromValue] (.mk (some (.arr [])) Meta.empty)
      ).meta.errors = [("expected tuple", some (.arr []))] ∧
    tupleFromValue [u64FromValue]
        (.mk (some (.arr [.mk (some (.u64 7)) Meta.empty])) Meta.empty) =
      ⟨some [⟨some 7, Meta.empty⟩], Meta.empty⟩ :=
  ⟨((tuple_arity_mismatch_iff [u64FromValue] [] Meta.empty).2.2.1
      (by decide)).trans rfl,
    ((tuple_arity_mismatch_iff [u64FromValue]
        [.mk (some (.u64 7)) Meta.empty] Meta.empty).2.2.2
      (by decide)).trans rfl⟩

/-- Claim C9: `DateTime<Utc>` serializes to an `F64` count of seconds since
epoch equal to whole seconds plus `subsec_micros / 1e6`, and `from_value` of
an `F64 ts` produces the instant with seconds the truncation of `ts` and
microseconds the truncated `fract(ts) * 1e6`; in particular parsing `1000.5`
yields `(1000 s, 500000 µs)`, serializing that instant yields `1000.5`, and
serializing the epoch yields `0.0`. -/
theorem datetime_f64_seconds (dt : DateTimeUtc) (ts : Rat) (meta : Meta)
    (parseDate : String → Except String DateTimeUtc) :
    dateTimeToValue ⟨some dt, meta⟩ =
      .mk (some (.f64 ((dt.secs : Rat) +
        ((dt.nanos / 1000 : Nat) : Rat) / 1000000))) meta ∧
    dateTimeFromValue parseDate (.mk (some (.f64 ts)) meta) =
      ⟨some ⟨f64AsI64 ts, f64AsU32 (ratFract ts * 1000000) * 1000⟩, meta⟩ ∧
    dateTimeFromValue parseDate (.mk (some (.f64 (1000.5 : Rat))) meta) =
      ⟨some ⟨1000, 500000000⟩, meta⟩ ∧
    datetime_to_timestamp ⟨1000, 500000000⟩ = (1000.5 : Rat) ∧
    datetime_to_timestamp ⟨0, 0⟩ = 0 := by
  have htr : ratTruncToInt (1000.5 : Rat) = 1000 := by
    rw [ratTruncToInt, if_pos (by norm_num)]
    norm_num [Int.floor_eq_iff]
  have hsec : f64AsI64 (1000.5 : Rat) = 1000 := by
    rw [f64AsI64, htr]
    decide
  have hfr : ratFract (1000.5 : Rat) = 1 / 2 := by
    rw [ratFract, htr]
    norm_num
  have hmic : f64AsU32 (ratFract (1000.5 : Rat) * 1000000) = 500000 := by
    rw [hfr, show ((1 / 2 : Rat) * 1000000) = (500000 : Rat) by norm_num,
      f64AsU32, ratTruncToInt, if_pos (by norm_num)]
    norm_num
    decide
  refine ⟨rfl, rfl, ?_, ?_, ?_⟩
  · simp [dateTimeFromValue, hsec, hmic]
  · rw [datetime_to_timestamp]
    norm_num
  · rw [datetime_to_timestamp]
    norm_num

/-- Every element whose meta tree is non-empty appears in the
`extract_child_meta` loop output under the key for its (offset) index. -/
theorem arrayExtractChildMetaAux_mem {α : Type}
    (emt : Annotated α → MetaTree) :
    ∀ (start : Nat) (xs : List (Annotated α)) (i : Nat) (h : i < xs.length),
      (emt (xs.get ⟨i, h⟩)).isEmptyB = false →
      (toString (start + i), emt (xs.get ⟨i, h⟩)) ∈
        arrayExtractChildMetaAux emt start xs := by
  intro start xs
  induction xs generalizing start with
  | nil => intro i h; exact absurd h (by simp)
  | cons x rest ih =>
    intro i h hne
    cases i with
    | zero =>
      rw [arrayExtractChildMetaAux]
      simp only [List.get] at hne ⊢
      simp [hne]
    | succ n =>
      rw [arrayExtractChildMetaAux]
      have hn : n < rest.length := by
        simpa [Nat.succ_lt_succ_iff] using h
      have hmem := ih (start + 1) n hn (by simpa using hne)
      have harith : start + 1 + n = start + (n + 1) := by omega
      rw [harith] at hmem
      by_cases he : (emt x).isEmptyB = true
      · simpa [he] using hmem
      · simp only [he, ite_false]
        exact List.mem_cons_of_mem _ (by simpa using hmem)

/-- Conversely, every entry of the `extract_child_meta` loop output is the
meta tree of some element, keyed by its (offset) decimal index, and is
non-empty. -/
theorem arrayExtractChildMetaAux_mem_inv {α : Type}
    (emt : Annotated α → MetaTree) :
    ∀ (start : Nat) (xs : List (Annotated α)) (k : String) (t : MetaTree),
      (k, t) ∈ arrayExtractChildMetaAux emt start xs →
      ∃ i, ∃ h : i < xs.length, k = toString (start + i) ∧
        t = emt (xs.get ⟨i, h⟩) ∧ t.isEmptyB = false := by
  intro start xs
  induction xs generalizing start with
  | nil =>
    intro k t hmem
    rw [arrayExtractChildMetaAux] at hmem
    exact absurd hmem (by simp)
  | cons x rest ih =>
    intro k t hmem
    rw [arrayExtractChildMetaAux] at hmem
    by_cases he : (emt x).isEmptyB = true
    · simp only [he, if_pos] at hmem
      obtain ⟨i, hi, hk, ht, hne⟩ := ih (start + 1) k t hmem
      exact ⟨i + 1, by simpa [Nat.succ_lt_succ_iff] using hi,
        by rw [hk]; congr 1; omega, by simpa using ht, hne⟩
    · simp only [he, if_neg, ite_false] at hmem
      rcases List.mem_cons.mp hmem with heq | htail
      · have hk : k = toString start := congrArg Prod.fst heq
        have ht : t = emt x := congrArg Prod.snd heq
        exact ⟨0, by simp, by simpa using hk, by simpa using ht,
          by rw [ht]; simpa using he⟩
      · obtain ⟨i, hi, hk, ht, hne⟩ := ih (start + 1) k t htail
        exact ⟨i + 1, by simpa [Nat.succ_lt_succ_iff] using hi,
          by rw [hk]; congr 1; omega, by simpa using ht, hne⟩

/-- Claim C10: `Array`'s `serialize_payload` emits every element — including
elements whose `skip_serialization` is true — so the emitted sequence has
exactly the array's length, with position `i` holding element `i`'s
serialization, and the decimal-index keys of `extract_child_meta` align with
those positions (key `toString i` maps to element `i`'s meta tree, present
exactly for the non-empty trees); `Object`'s `serialize_payload`, by
contrast, omits entries whose value's `skip_serialization` is true, as the
concrete one-absent-element instances at the end exhibit. -/
theorem array_serialize_emits_every_element {α : Type} (sp : α → Json)
    (skip : α → Bool) (emt : Annotated α → MetaTree)
    (xs : List (Annotated α)) (fields : List (String × Annotated α)) :
    arraySerializePayload sp xs = .arr (xs.map (serializeAnnotated sp)) ∧
    (xs.map (serializeAnnotated sp)).length = xs.length ∧
    (∀ i (h : i < xs.length),
      (xs.map (serializeAnnotated sp)).get ⟨i, by simpa using h⟩ =
        serializeAnnotated sp (xs.get ⟨i, h⟩)) ∧
    (∀ i (h : i < xs.length), (emt (xs.get ⟨i, h⟩)).isEmptyB = false →
      (toString i, emt (xs.get ⟨i, h⟩)) ∈ arrayExtractChildMeta emt xs) ∧
    (∀ k t, (k, t) ∈ arrayExtractChildMeta emt xs →
      ∃ i, ∃ h : i < xs.length, k = toString i ∧
        t = emt (xs.get ⟨i, h⟩) ∧ t.isEmptyB = false) ∧
    objectSerializePayload sp skip fields =
      .obj ((fields.filter (fun kv => !annotatedSkip skip kv.2)).map
        (fun kv => (kv.1, serializeAnnotated sp kv.2))) ∧
    arraySerializePayload sp [(⟨none, Meta.empty⟩ : Annotated α)] =
      .arr [.null] ∧
    annotatedSkip skip (⟨none, Meta.empty⟩ : Annotated α) = true ∧
    objectSerializePayload sp skip [("a", ⟨none, Meta.empty⟩)] = .obj [] := by
  refine ⟨rfl, by simp, fun i h => by simp, ?_, ?_, rfl, rfl, rfl, rfl⟩
  · intro i h hne
    have := arrayExtractChildMetaAux_mem emt 0 xs i h hne
    simpa [arrayExtractChildMeta] using this
  · intro k t hmem
    have := arrayExtractChildMetaAux_mem_inv emt 0 xs k t
      (by simpa [arrayExtractChildMeta] using hmem)
    simpa using this

/-- Witness for C10 at a one-element array whose element is absent but
carries a meta error: the element is still emitted as `null`, and
`extract_child_meta` keys its (non-empty) tree under index 0. -/
theorem array_serialize_emits_every_element_witness :
    (([(⟨none, Meta.mk [("e", none)] [] none⟩ : Annotated Nat)].map
        (serializeAnnotated (fun _ => Json.null))).get ⟨0, by decide⟩ =
      serializeAnnotated (fun _ => Json.null)
        ([(⟨none, Meta.mk [("e", none)] [] none⟩ : Annotated Nat)].get
          ⟨0, by decide⟩)) ∧
    (toString 0, MetaTree.mk (Meta.mk [("e", none)] [] none) []) ∈
      arrayExtractChildMeta (fun a => MetaTree.mk a.meta [])
        [(⟨none, Meta.mk [("e", none)] [] none⟩ : Annotated Nat)] :=
  ⟨(array_serialize_emits_every_element (fun _ => Json.null)
      (fun _ => true) (fun a => MetaTree.mk a.meta [])
      [⟨none, Meta.mk [("e", none)] [] none⟩] []).2.2.1 0 (by decide),
    (array_serialize_emits_every_element (fun _ => Json.null)
      (fun _ => true) (fun a => MetaTree.mk a.meta [])
      [⟨none, Meta.mk [("e", none)] [] none⟩] []).2.2.2.1 0 (by decide)
      rfl⟩
